import Mathlib

/-!
# Safe teleoperation supervisor (`src/safe_teleop.cpp`)

A shallow embedding of the class `safe_teleop::SafeTeleop`.

* C++ `double` values are exact rationals (`ℚ`): no rounding, no NaN, no infinity. The one
  place where rounding decides a branch, the sector test on the sample angle, is also given
  with `double` rounding (`toDouble`, `scanLoopDouble`, `checkSafetyDouble`).
* The member fields of the class are split in two records: `SafetyLimits` holds the
  fields that are written only by the constructor, `VelocityState` the fields that the
  operations write.
* Every `ros::Time::now().toSec()` is the explicit argument `now`; one control cycle
  reads a single clock value.
* `getLaserScan()` is declared in the header only; the cached scan is an argument, and of
  the scan only `ranges` is read by the code (apart from logging).
* Reading `s[i]` outside the vector is the failure `none`.
* `checkSafety` is declared `bool` and has no `return` statement. `checkSafety` and
  `runCycle` give the effect of the statements on the state; `checkSafetyCall` records that
  the call ends at the closing brace without a value.
* Threads are not modelled: a run of the loop is a finite list of cycles, and the join in
  the destructor is sequential composition (the loop's remaining cycles, then the
  destructor's own publish).
-/

namespace SafeTeleop

/-- Constructor-initialised limits of `SafeTeleop` (the spec's SafetyLimits). -/
structure SafetyLimits where
  max_cmd_vel_age_ : ℚ
  max_linear_vel_ : ℚ
  max_angular_vel_ : ℚ
  linear_vel_increment_ : ℚ
  angular_vel_increment_ : ℚ
  laser_safety_check_angle_ : ℚ
  min_safety_impact_time_ : ℚ
  min_safety_distance_ : ℚ
  deriving DecidableEq

/-- Mutable velocity fields of `SafeTeleop` (the spec's VelocityState):
`linear_vel_` is target_linear, `angular_vel_` is target_angular,
`last_command_timestamp_` is last_command_time. -/
structure VelocityState where
  linear_vel_ : ℚ
  angular_vel_ : ℚ
  linear_speed_ : ℚ
  angular_speed_ : ℚ
  last_command_timestamp_ : ℚ
  deriving DecidableEq

/-- The published `geometry_msgs::Twist`, reduced to the two components the code sets
(`linear.x` and `angular.z`). -/
structure Twist where
  linear : ℚ
  angular : ℚ
  deriving DecidableEq

/-- Limits set by the constructor `SafeTeleop::SafeTeleop` (lines 13-20). -/
def defaultLimits : SafetyLimits :=
  { max_cmd_vel_age_ := 1
    max_linear_vel_ := 1
    max_angular_vel_ := 1
    linear_vel_increment_ := 1 / 20
    angular_vel_increment_ := 1 / 20
    laser_safety_check_angle_ := 1 / 4
    min_safety_impact_time_ := 1 / 2
    min_safety_distance_ := 1 / 2 }

/-- Velocity fields set by the constructor `SafeTeleop::SafeTeleop` (lines 21-26). -/
def initialState : VelocityState :=
  { linear_vel_ := 0
    angular_vel_ := 0
    linear_speed_ := 0
    angular_speed_ := 0
    last_command_timestamp_ := 0 }

/-- Member function `SafeTeleop::moveForward` (lines 79-87). -/
def moveForward (now : ℚ) (st : VelocityState) : VelocityState :=
  { st with linear_vel_ := st.linear_speed_ * 1, last_command_timestamp_ := now }

/-- Member function `SafeTeleop::moveBackward` (lines 89-94). -/
def moveBackward (now : ℚ) (st : VelocityState) : VelocityState :=
  { st with linear_vel_ := st.linear_speed_ * (-1), last_command_timestamp_ := now }

/-- Member function `SafeTeleop::rotateClockwise` (lines 96-101). -/
def rotateClockwise (now : ℚ) (st : VelocityState) : VelocityState :=
  { st with angular_vel_ := st.angular_speed_ * 1, last_command_timestamp_ := now }

/-- Member function `SafeTeleop::rotateCounterClockwise` (lines 103-109). -/
def rotateCounterClockwise (now : ℚ) (st : VelocityState) : VelocityState :=
  { st with angular_vel_ := st.angular_speed_ * (-1), last_command_timestamp_ := now }

/-- Member function `SafeTeleop::stop` (lines 111-117). -/
def stop (now : ℚ) (st : VelocityState) : VelocityState :=
  { st with linear_vel_ := 0, angular_vel_ := 0, last_command_timestamp_ := now }

/-- Member function `SafeTeleop::increaseLinearSpeed` (lines 120-126). -/
def increaseLinearSpeed (cfg : SafetyLimits) (now : ℚ) (st : VelocityState) : VelocityState :=
  { st with linear_speed_ := st.linear_speed_ + cfg.linear_vel_increment_,
            last_command_timestamp_ := now }

/-- Member function `SafeTeleop::decreaseLinearSpeed` (lines 128-134). -/
def decreaseLinearSpeed (cfg : SafetyLimits) (now : ℚ) (st : VelocityState) : VelocityState :=
  { st with linear_speed_ := st.linear_speed_ - cfg.linear_vel_increment_,
            last_command_timestamp_ := now }

/-- Member function `SafeTeleop::increaseAngularSpeed` (lines 136-142). -/
def increaseAngularSpeed (cfg : SafetyLimits) (now : ℚ) (st : VelocityState) : VelocityState :=
  { st with angular_speed_ := st.angular_speed_ + cfg.angular_vel_increment_,
            last_command_timestamp_ := now }

/-- Member function `SafeTeleop::decreaseAngularSpeed` (lines 144-150). -/
def decreaseAngularSpeed (cfg : SafetyLimits) (now : ℚ) (st : VelocityState) : VelocityState :=
  { st with angular_speed_ := st.angular_speed_ - cfg.angular_vel_increment_,
            last_command_timestamp_ := now }

/-- The nine operator-facing operations (lines 79-150), as a tag. -/
inductive Command where
  | moveForward
  | moveBackward
  | rotateClockwise
  | rotateCounterClockwise
  | stop
  | increaseLinearSpeed
  | decreaseLinearSpeed
  | increaseAngularSpeed
  | decreaseAngularSpeed
  deriving DecidableEq, Repr

/-- Dispatch of a `Command` tag to the member function of the same name. -/
def Command.apply (cfg : SafetyLimits) (now : ℚ) (st : VelocityState) : Command → VelocityState
  | .moveForward => SafeTeleop.moveForward now st
  | .moveBackward => SafeTeleop.moveBackward now st
  | .rotateClockwise => SafeTeleop.rotateClockwise now st
  | .rotateCounterClockwise => SafeTeleop.rotateCounterClockwise now st
  | .stop => SafeTeleop.stop now st
  | .increaseLinearSpeed => SafeTeleop.increaseLinearSpeed cfg now st
  | .decreaseLinearSpeed => SafeTeleop.decreaseLinearSpeed cfg now st
  | .increaseAngularSpeed => SafeTeleop.increaseAngularSpeed cfg now st
  | .decreaseAngularSpeed => SafeTeleop.decreaseAngularSpeed cfg now st

/-- The two clamps of `checkSafety` (lines 157-160). -/
def clampTargets (cfg : SafetyLimits) (st : VelocityState) : VelocityState :=
  let st1 := if st.linear_vel_ ≥ cfg.max_linear_vel_ then
      { st with linear_vel_ := cfg.max_linear_vel_ } else st
  if st1.angular_vel_ ≥ cfg.max_angular_vel_ then
    { st1 with angular_vel_ := cfg.max_angular_vel_ } else st1

/-- The sector condition of line 164 on the angle of a sample, in degrees. -/
def inSector (angle : ℚ) : Bool :=
  (decide (angle > -15) && decide (angle < 15)) || (decide (angle > 165) && decide (angle < 195))

/-- The `for` loop of `checkSafety` (lines 162-167), entered with index `i` and state `st`:
while `s.size() > i`, compute `angle = i*inc - 180.0`; when the angle is in a sector, read
`s[i]` and call `stop()` if it is `<= min_safety_distance_`. The angle is the exact value;
`scanLoopDouble` is the same loop with the angle rounded as the code rounds it. -/
def scanLoop (cfg : SafetyLimits) (now : ℚ) (s : List ℚ) (inc : ℚ) (i : ℕ)
    (st : VelocityState) : Option VelocityState :=
  if s.length > i then
    let angle : ℚ := (i : ℚ) * inc - 180
    if inSector angle then
      match s[i]? with
      | none => none
      | some d =>
        if d ≤ cfg.min_safety_distance_ then scanLoop cfg now s inc (i + 1) (stop now st)
        else scanLoop cfg now s inc (i + 1) st
    else scanLoop cfg now s inc (i + 1) st
  else some st
termination_by s.length - i

/-- Effect on the state of the statements of `SafeTeleop::checkSafety` (lines 154-167) on the
cached scan `ranges`, in exact arithmetic; `none` is a read outside the samples. The argument
`linear_vel` of the C++ function is never read. The result `some` is the state when control
reaches the end of the body, not a returned value: how the call ends is `checkSafetyCall`.
For an empty scan `inc` (an unguarded division by zero in the code) is never used. -/
def checkSafety (cfg : SafetyLimits) (now : ℚ) (ranges : List ℚ) (st : VelocityState) :
    Option VelocityState :=
  let inc : ℚ := 360 / (ranges.length : ℚ)
  scanLoop cfg now ranges inc 0 (clampTargets cfg st)

/-- One iteration of the `while` loop of `SafeTeleop::run` (lines 54-72): the next state
and the published command. -/
def runCycle (cfg : SafetyLimits) (now : ℚ) (ranges : List ℚ) (st : VelocityState) :
    Option (VelocityState × Twist) :=
  let last_cmd_vel_age := now - st.last_command_timestamp_
  let next : Option VelocityState :=
    if last_cmd_vel_age > cfg.max_cmd_vel_age_ then some { st with linear_vel_ := 0 }
    else checkSafety cfg now ranges st
  next.map fun st1 => (st1, { linear := st1.linear_vel_, angular := st1.angular_vel_ })

/-- How a call of a C++ function declared with a result type can end: at a `return`
statement, at the closing brace without one (undefined behaviour in C++), or at a read
outside a vector. -/
inductive CallEnd where
  | returned (value : Bool) (st : VelocityState)
  | fellOffEnd (st : VelocityState)
  | badRead
  deriving DecidableEq

/-- The whole call of `SafeTeleop::checkSafety` (lines 152-172): after the statements of the
body, whose effect on the state is `checkSafety`, control reaches the closing brace of line
172. The function is declared `bool` and its body has no `return` statement, so no path
ends in `CallEnd.returned`. -/
def checkSafetyCall (cfg : SafetyLimits) (now : ℚ) (ranges : List ℚ) (st : VelocityState) :
    CallEnd :=
  match checkSafety cfg now ranges st with
  | none => CallEnd.badRead
  | some st1 => CallEnd.fellOffEnd st1

/-- A sample index at which the loop of `checkSafety` calls `stop()`: sector angle and
distance at most `min_safety_distance_`. -/
def triggers (cfg : SafetyLimits) (s : List ℚ) (i : ℕ) : Bool :=
  inSector ((i : ℚ) * (360 / (s.length : ℚ)) - 180) &&
    (match s[i]? with
     | none => false
     | some d => decide (d ≤ cfg.min_safety_distance_))

/-- Some index in `i .. s.length - 1` triggers. -/
def triggersFrom (cfg : SafetyLimits) (s : List ℚ) (i : ℕ) : Bool :=
  (List.range s.length).any fun j => decide (i ≤ j) && triggers cfg s j

/-- Consecutive calls of one operation `op`, one call per time in the list. -/
def iterateOp (op : ℚ → VelocityState → VelocityState) : List ℚ → VelocityState → VelocityState
  | [], st => st
  | t :: ts, st => iterateOp op ts (op t st)

/-- Sectors as the specification words them, on the angle of a sample in degrees: front is
within 15 degrees of 0, rear is within 15 degrees of 180 on the circle. -/
def specInSector (angle : ℚ) : Prop :=
  (-15 ≤ angle ∧ angle ≤ 15) ∨ angle ≥ 165 ∨ angle ≤ -165

/-- A state in motion: both targets non-zero and below the limits of `defaultLimits`,
last command at time `1/2`. -/
def cruising : VelocityState :=
  { linear_vel_ := 1 / 2
    angular_vel_ := 1 / 3
    linear_speed_ := 1 / 2
    angular_speed_ := 1 / 3
    last_command_timestamp_ := 1 / 2 }

/-- A scan of 4 samples with a close sample `3/10` at index 2, angle 0 degrees. -/
def frontScan4 : List ℚ := [2, 2, 3 / 10, 2]

/-- A scan of 4 samples, none of them close. -/
def clearScan4 : List ℚ := [2, 2, 2, 2]

/-- The constructor state after thirty `increaseLinearSpeed()` calls and one
`moveBackward()`, all at time 0. -/
def backwardFast : VelocityState :=
  moveBackward 0
    (iterateOp (increaseLinearSpeed defaultLimits) (List.replicate 30 0) initialState)

/-- The constructor state with `linear_speed_` raised to `1/2`. -/
def halfSpeed : VelocityState := { initialState with linear_speed_ := 1 / 2 }

/-- A scan of 4 samples with a close sample `3/10` at index 0, angle -180 degrees (straight
behind). -/
def rearScan4 : List ℚ := [3 / 10, 2, 2, 2]

/-- The trigger condition as claim C17 words it, on sample indices: some index `i < n` has
`ranges[i] ≤ min_safety_distance_` and `165*n < 360*i < 195*n` or `360*i > 345*n`. -/
def indexTrigger (cfg : SafetyLimits) (ranges : List ℚ) : Prop :=
  ∃ i, ∃ hi : i < ranges.length, ranges[i] ≤ cfg.min_safety_distance_ ∧
    ((165 * ranges.length < 360 * i ∧ 360 * i < 195 * ranges.length) ∨
      345 * ranges.length < 360 * i)

/-- Nearest integer to `q`, a tie going to the even neighbour. -/
def roundNearestEven (q : ℚ) : ℤ :=
  if q - ⌊q⌋ < 1 / 2 then ⌊q⌋
  else if 1 / 2 < q - ⌊q⌋ then ⌊q⌋ + 1
  else if ⌊q⌋ % 2 = 0 then ⌊q⌋ else ⌊q⌋ + 1

/-- The C++ `double` (IEEE-754 binary64, round to nearest, ties to even) nearest to the
exact value `x`: 53 significant bits. Overflow and subnormal numbers are not modelled. -/
def toDouble (x : ℚ) : ℚ :=
  if x = 0 then 0
  else (roundNearestEven (x / 2 ^ (Int.log 2 |x| - 52)) : ℚ) * 2 ^ (Int.log 2 |x| - 52)

/-- The `for` loop of `checkSafety` (lines 162-167) with the angle of line 163 computed in
`double`: the product `i*inc` is rounded, then the difference with `180.0` is rounded. The
rest is as in `scanLoop`. -/
def scanLoopDouble (cfg : SafetyLimits) (now : ℚ) (s : List ℚ) (inc : ℚ) (i : ℕ)
    (st : VelocityState) : Option VelocityState :=
  if s.length > i then
    let angle : ℚ := toDouble (toDouble ((i : ℚ) * inc) - 180)
    if inSector angle then
      match s[i]? with
      | none => none
      | some d =>
        if d ≤ cfg.min_safety_distance_ then
          scanLoopDouble cfg now s inc (i + 1) (stop now st)
        else scanLoopDouble cfg now s inc (i + 1) st
    else scanLoopDouble cfg now s inc (i + 1) st
  else some st
termination_by s.length - i

/-- The statements of `SafeTeleop::checkSafety` (lines 155-167) with the arithmetic of lines
155 and 163 in `double`: `inc` is the rounded quotient `360.0/ranges.size()`. For an empty
scan `inc` (infinite in the code) is never used. -/
def checkSafetyDouble (cfg : SafetyLimits) (now : ℚ) (ranges : List ℚ) (st : VelocityState) :
    Option VelocityState :=
  let inc : ℚ := toDouble (360 / (ranges.length : ℚ))
  scanLoopDouble cfg now ranges inc 0 (clampTargets cfg st)

/-- The angle of sample `i` of `n` as `checkSafetyDouble` computes it. -/
def angleDouble (n i : ℕ) : ℚ :=
  toDouble (toDouble ((i : ℚ) * toDouble (360 / (n : ℚ))) - 180)

/-- A sample index at which the loop of `checkSafetyDouble` calls `stop()`. -/
def triggersDouble (cfg : SafetyLimits) (s : List ℚ) (i : ℕ) : Bool :=
  inSector (angleDouble s.length i) &&
    (match s[i]? with
     | none => false
     | some d => decide (d ≤ cfg.min_safety_distance_))

/-- Some index in `i .. s.length - 1` triggers in `double` arithmetic. -/
def triggersFromDouble (cfg : SafetyLimits) (s : List ℚ) (i : ℕ) : Bool :=
  (List.range s.length).any fun j => decide (i ≤ j) && triggersDouble cfg s j

/-- The trigger condition on sample indices with the sector bounds included: some index
`i < n` has `ranges[i] ≤ min_safety_distance_` and `165*n ≤ 360*i ≤ 195*n` or
`360*i ≥ 345*n`. -/
def closedIndexTrigger (cfg : SafetyLimits) (ranges : List ℚ) : Prop :=
  ∃ i, ∃ hi : i < ranges.length, ranges[i] ≤ cfg.min_safety_distance_ ∧
    ((165 * ranges.length ≤ 360 * i ∧ 360 * i ≤ 195 * ranges.length) ∨
      345 * ranges.length ≤ 360 * i)

/-- A scan of 264 samples, all at distance 2 except the sample at index 143 (exact angle
`143*360/264 - 180 = 15` degrees) at `3/10`. -/
def boundaryScan264 : List ℚ := (List.replicate 264 2).set 143 (3 / 10)

/-! ## Properties of the embedding -/

theorem stop_stop (t u : ℚ) (st : VelocityState) : stop t (stop u st) = stop t st := by
  simp [stop]

theorem triggersFrom_iff (cfg : SafetyLimits) (s : List ℚ) (i : ℕ) :
    triggersFrom cfg s i = true ↔ ∃ j, i ≤ j ∧ j < s.length ∧ triggers cfg s j = true := by
  simp only [triggersFrom, List.any_eq_true, List.mem_range, Bool.and_eq_true, decide_eq_true_eq]
  constructor
  · rintro ⟨j, hj, hij, ht⟩
    exact ⟨j, hij, hj, ht⟩
  · rintro ⟨j, hij, hj, ht⟩
    exact ⟨j, hj, hij, ht⟩

theorem triggersFrom_of_length_le (cfg : SafetyLimits) (s : List ℚ) (i : ℕ)
    (h : s.length ≤ i) : triggersFrom cfg s i = false := by
  rw [Bool.eq_false_iff]
  intro ht
  obtain ⟨j, hij, hj, _⟩ := (triggersFrom_iff cfg s i).1 ht
  omega

theorem triggersFrom_step (cfg : SafetyLimits) (s : List ℚ) (i : ℕ) :
    triggersFrom cfg s i = (triggers cfg s i || triggersFrom cfg s (i + 1)) := by
  rw [Bool.eq_iff_iff]
  simp only [Bool.or_eq_true, triggersFrom_iff]
  constructor
  · rintro ⟨j, hij, hj, ht⟩
    rcases Nat.eq_or_lt_of_le hij with h | h
    · left; rw [h]; exact ht
    · right; exact ⟨j, h, hj, ht⟩
  · rintro (ht | ⟨j, hij, hj, ht⟩)
    · refine ⟨i, le_refl i, ?_, ht⟩
      by_contra hlen
      have hnone : s[i]? = none := List.getElem?_eq_none (by omega)
      simp [triggers, hnone] at ht
    · exact ⟨j, by omega, hj, ht⟩

theorem scanLoop_eq (cfg : SafetyLimits) (now : ℚ) (s : List ℚ) :
    ∀ (k i : ℕ) (st : VelocityState), s.length - i = k →
      scanLoop cfg now s (360 / (s.length : ℚ)) i st =
        some (if triggersFrom cfg s i then stop now st else st) := by
  intro k
  induction k with
  | zero =>
    intro i st hk
    have hle : s.length ≤ i := by omega
    rw [scanLoop, if_neg (by omega), triggersFrom_of_length_le cfg s i hle]
    simp
  | succ k ih =>
    intro i st hk
    have hlt : i < s.length := by omega
    have hget : s[i]? = some s[i] := List.getElem?_eq_getElem hlt
    rw [scanLoop, if_pos hlt, triggersFrom_step]
    simp only [hget]
    by_cases hsec : inSector ((i : ℚ) * (360 / (s.length : ℚ)) - 180) = true
    · by_cases hd : s[i] ≤ cfg.min_safety_distance_
      · have ht : triggers cfg s i = true := by simp [triggers, hsec, hget, hd]
        rw [if_pos hsec, if_pos hd, ih (i + 1) (stop now st) (by omega), ht]
        simp [stop_stop]
      · have ht : triggers cfg s i = false := by simp [triggers, hget, hd]
        rw [if_pos hsec, if_neg hd, ih (i + 1) st (by omega), ht]
        simp
    · have ht : triggers cfg s i = false := by simp [triggers, hsec]
      rw [if_neg hsec, ih (i + 1) st (by omega), ht]
      simp

theorem checkSafety_eq (cfg : SafetyLimits) (now : ℚ) (ranges : List ℚ) (st : VelocityState) :
    checkSafety cfg now ranges st =
      some (if triggersFrom cfg ranges 0 then stop now (clampTargets cfg st)
        else clampTargets cfg st) := by
  unfold checkSafety
  exact scanLoop_eq cfg now ranges ranges.length 0 (clampTargets cfg st) (by omega)


theorem runCycle_stale (cfg : SafetyLimits) (now : ℚ) (ranges : List ℚ) (st : VelocityState)
    (h : now - st.last_command_timestamp_ > cfg.max_cmd_vel_age_) :
    runCycle cfg now ranges st =
      some ({ st with linear_vel_ := 0 }, { linear := 0, angular := st.angular_vel_ }) := by
  simp [runCycle, h]

theorem runCycle_fresh (cfg : SafetyLimits) (now : ℚ) (ranges : List ℚ) (st : VelocityState)
    (h : now - st.last_command_timestamp_ ≤ cfg.max_cmd_vel_age_) :
    runCycle cfg now ranges st =
      some (if triggersFrom cfg ranges 0 then
          (stop now (clampTargets cfg st), { linear := 0, angular := 0 })
        else (clampTargets cfg st, { linear := (clampTargets cfg st).linear_vel_,
                                     angular := (clampTargets cfg st).angular_vel_ })) := by
  have hn : ¬ now - st.last_command_timestamp_ > cfg.max_cmd_vel_age_ := not_lt.mpr h
  rw [runCycle]
  simp only [hn, if_false, checkSafety_eq, Option.map_some']
  cases triggersFrom cfg ranges 0 <;> simp [stop]

theorem triggersFrom_of_clear (cfg : SafetyLimits) (s : List ℚ) (i : ℕ)
    (h : ∀ d ∈ s, cfg.min_safety_distance_ < d) : triggersFrom cfg s i = false := by
  rw [Bool.eq_false_iff]
  intro ht
  obtain ⟨j, _, hj, htr⟩ := (triggersFrom_iff cfg s i).1 ht
  have hget : s[j]? = some s[j] := List.getElem?_eq_getElem hj
  have hmem : s[j] ∈ s := List.getElem_mem hj
  have := h _ hmem
  simp [triggers, hget, not_le.mpr this] at htr

theorem clampTargets_of_le (cfg : SafetyLimits) (st : VelocityState)
    (hl : st.linear_vel_ ≤ cfg.max_linear_vel_) (ha : st.angular_vel_ ≤ cfg.max_angular_vel_) :
    clampTargets cfg st = st := by
  unfold clampTargets
  rcases lt_or_eq_of_le hl with h1 | h1 <;> rcases lt_or_eq_of_le ha with h2 | h2
  · simp [not_le.mpr h1, not_le.mpr h2]
  · simp [not_le.mpr h1, ← h2]
  · simp [not_le.mpr h2, ← h1]
  · simp [← h1, ← h2]

theorem iterateOp_stop_targets (ts : List ℚ) : ∀ st : VelocityState,
    st.linear_vel_ = 0 → st.angular_vel_ = 0 →
      (iterateOp stop ts st).linear_vel_ = 0 ∧ (iterateOp stop ts st).angular_vel_ = 0 := by
  induction ts with
  | nil => intro st h1 h2; exact ⟨h1, h2⟩
  | cons t ts ih => intro st _ _; exact ih (stop t st) rfl rfl

theorem iterateOp_stop_speeds (ts : List ℚ) : ∀ st : VelocityState,
    (iterateOp stop ts st).linear_speed_ = st.linear_speed_ ∧
      (iterateOp stop ts st).angular_speed_ = st.angular_speed_ := by
  induction ts with
  | nil => intro st; exact ⟨rfl, rfl⟩
  | cons t ts ih => intro st; exact ih (stop t st)

theorem iterateOp_increaseLinearSpeed (cfg : SafetyLimits) (ts : List ℚ) :
    ∀ st : VelocityState,
      (iterateOp (increaseLinearSpeed cfg) ts st).linear_speed_ =
        st.linear_speed_ + (ts.length : ℚ) * cfg.linear_vel_increment_ := by
  induction ts with
  | nil => intro st; simp [iterateOp]
  | cons t ts ih =>
    intro st
    rw [iterateOp, ih]
    simp only [increaseLinearSpeed, List.length_cons, Nat.cast_add, Nat.cast_one]
    ring

/-- C2: in a stale cycle (`now - last_command_timestamp_ > max_cmd_vel_age_`) the cycle
returns, the published command has `linear = 0`, and `linear_vel_` is 0 afterwards. -/
theorem C2_stale_cycle_zeroes_linear (cfg : SafetyLimits) (now : ℚ) (ranges : List ℚ)
    (st : VelocityState) (hstale : now - st.last_command_timestamp_ > cfg.max_cmd_vel_age_) :
    ∃ st1 cmd, runCycle cfg now ranges st = some (st1, cmd) ∧
      cmd.linear = 0 ∧ st1.linear_vel_ = 0 :=
  ⟨_, _, runCycle_stale cfg now ranges st hstale, rfl, rfl⟩

/-- Witness of C2: the moving state, last commanded at `1/2`, seen at time 5. -/
theorem C2_stale_cycle_zeroes_linear_witness :
    5 - cruising.last_command_timestamp_ > defaultLimits.max_cmd_vel_age_ ∧
    ∃ st1 cmd, runCycle defaultLimits 5 frontScan4 cruising = some (st1, cmd) ∧
      cmd.linear = 0 ∧ st1.linear_vel_ = 0 :=
  ⟨by norm_num [cruising, defaultLimits],
   C2_stale_cycle_zeroes_linear defaultLimits 5 frontScan4 cruising
     (by norm_num [cruising, defaultLimits])⟩

/-- C3 (scenario D): after `moveForward()` at time `t`, a cycle at a time `t1` with
`t1 - t > max_cmd_vel_age_` publishes `linear = 0` and the angular target held before the
cycle, for every scan, and leaves `angular_vel_`, `linear_speed_`, `angular_speed_` and
`last_command_timestamp_` as they were. -/
theorem C3_stale_after_moveForward (cfg : SafetyLimits) (t t1 : ℚ) (ranges : List ℚ)
    (st : VelocityState) (hstale : t1 - t > cfg.max_cmd_vel_age_) :
    ∃ st1 cmd, runCycle cfg t1 ranges (moveForward t st) = some (st1, cmd) ∧
      cmd.linear = 0 ∧
      cmd.angular = (moveForward t st).angular_vel_ ∧
      cmd.angular = st.angular_vel_ ∧
      st1.angular_vel_ = (moveForward t st).angular_vel_ ∧
      st1.linear_speed_ = (moveForward t st).linear_speed_ ∧
      st1.angular_speed_ = (moveForward t st).angular_speed_ ∧
      st1.last_command_timestamp_ = (moveForward t st).last_command_timestamp_ ∧
      st1.last_command_timestamp_ = t :=
  ⟨_, _, runCycle_stale cfg t1 ranges (moveForward t st) hstale,
    rfl, rfl, rfl, rfl, rfl, rfl, rfl, rfl⟩

/-- Witness of C3: `moveForward()` at time 1, cycle at time 5, close sample dead ahead. -/
theorem C3_stale_after_moveForward_witness :
    ∃ st1 cmd, runCycle defaultLimits 5 frontScan4 (moveForward 1 cruising) = some (st1, cmd) ∧
      cmd.linear = 0 ∧
      cmd.angular = (moveForward 1 cruising).angular_vel_ ∧
      cmd.angular = cruising.angular_vel_ ∧
      st1.angular_vel_ = (moveForward 1 cruising).angular_vel_ ∧
      st1.linear_speed_ = (moveForward 1 cruising).linear_speed_ ∧
      st1.angular_speed_ = (moveForward 1 cruising).angular_speed_ ∧
      st1.last_command_timestamp_ = (moveForward 1 cruising).last_command_timestamp_ ∧
      st1.last_command_timestamp_ = 1 :=
  C3_stale_after_moveForward defaultLimits 1 5 frontScan4 cruising
    (by norm_num [defaultLimits])


theorem iterateOp_increase_frame (cfg : SafetyLimits) (ts : List ℚ) :
    ∀ st : VelocityState,
      (iterateOp (increaseLinearSpeed cfg) ts st).linear_vel_ = st.linear_vel_ ∧
      (iterateOp (increaseLinearSpeed cfg) ts st).angular_vel_ = st.angular_vel_ := by
  induction ts with
  | nil => intro st; exact ⟨rfl, rfl⟩
  | cons t ts ih => intro st; exact ih (increaseLinearSpeed cfg t st)


/-- C4 (the code breaks the invariant): from the constructor state, thirty
`increaseLinearSpeed()` calls give `linear_speed_ = 3/2`; after `moveBackward()` the safety
check on a scan without close samples returns with `linear_vel_ = -3/2`, so that
`|linear_vel_| ≤ max_linear_vel_` fails, and the fresh cycle publishes `linear = -3/2`. -/
theorem C4_backward_target_escapes_clamp :
    (iterateOp (increaseLinearSpeed defaultLimits) (List.replicate 30 0)
        initialState).linear_speed_ = 3 / 2 ∧
    (∃ st1, checkSafety defaultLimits 0 clearScan4 backwardFast = some st1 ∧
      st1.linear_vel_ = -3 / 2 ∧ ¬ |st1.linear_vel_| ≤ defaultLimits.max_linear_vel_) ∧
    (∃ st1, runCycle defaultLimits 0 clearScan4 backwardFast =
      some (st1, { linear := -3 / 2, angular := 0 })) := by
  have hclear : triggersFrom defaultLimits clearScan4 0 = false :=
    triggersFrom_of_clear _ _ _ (by simp [clearScan4, defaultLimits]; norm_num)
  have hspeed : (iterateOp (increaseLinearSpeed defaultLimits) (List.replicate 30 0)
      initialState).linear_speed_ = 3 / 2 := by
    rw [iterateOp_increaseLinearSpeed]
    norm_num [initialState, defaultLimits]
  have hlin : backwardFast.linear_vel_ = -3 / 2 := by
    simp only [backwardFast, moveBackward, hspeed]
    norm_num
  have hang : backwardFast.angular_vel_ = 0 := by
    simp only [backwardFast, moveBackward]
    exact (iterateOp_increase_frame defaultLimits _ initialState).2
  have hclamp : clampTargets defaultLimits backwardFast = backwardFast :=
    clampTargets_of_le _ _ (by rw [hlin]; norm_num [defaultLimits])
      (by rw [hang]; norm_num [defaultLimits])
  refine ⟨hspeed, ⟨backwardFast, ?_, hlin, ?_⟩, ⟨backwardFast, ?_⟩⟩
  · rw [checkSafety_eq, hclear, hclamp]
    simp
  · rw [hlin]
    norm_num [defaultLimits, abs_le]
  · have hts : backwardFast.last_command_timestamp_ = 0 := rfl
    rw [runCycle_fresh _ _ _ _ (by rw [hts]; norm_num [defaultLimits]), hclear, hclamp,
      hlin, hang]
    simp

/-- C5: each of the nine operations leaves `last_command_timestamp_` equal to `now`. -/
theorem C5_every_command_refreshes_timestamp (cfg : SafetyLimits) (now : ℚ)
    (st : VelocityState) (c : Command) :
    (c.apply cfg now st).last_command_timestamp_ = now := by
  cases c <;> rfl

/-- C6: `moveForward()` sets `linear_vel_ = linear_speed_` and `moveBackward()` sets
`linear_vel_ = -linear_speed_`, both leaving `angular_vel_` and the two speeds unchanged;
`rotateClockwise()` sets `angular_vel_ = angular_speed_` and `rotateCounterClockwise()` sets
`angular_vel_ = -angular_speed_`, both leaving `linear_vel_` and the two speeds unchanged. -/
theorem C6_move_and_rotate_set_signed_targets (now : ℚ) (st : VelocityState) :
    ((moveForward now st).linear_vel_ = st.linear_speed_ ∧
      (moveForward now st).angular_vel_ = st.angular_vel_ ∧
      (moveForward now st).linear_speed_ = st.linear_speed_ ∧
      (moveForward now st).angular_speed_ = st.angular_speed_) ∧
    ((moveBackward now st).linear_vel_ = -st.linear_speed_ ∧
      (moveBackward now st).angular_vel_ = st.angular_vel_ ∧
      (moveBackward now st).linear_speed_ = st.linear_speed_ ∧
      (moveBackward now st).angular_speed_ = st.angular_speed_) ∧
    ((rotateClockwise now st).angular_vel_ = st.angular_speed_ ∧
      (rotateClockwise now st).linear_vel_ = st.linear_vel_ ∧
      (rotateClockwise now st).linear_speed_ = st.linear_speed_ ∧
      (rotateClockwise now st).angular_speed_ = st.angular_speed_) ∧
    ((rotateCounterClockwise now st).angular_vel_ = -st.angular_speed_ ∧
      (rotateCounterClockwise now st).linear_vel_ = st.linear_vel_ ∧
      (rotateCounterClockwise now st).linear_speed_ = st.linear_speed_ ∧
      (rotateCounterClockwise now st).angular_speed_ = st.angular_speed_) := by
  simp [moveForward, moveBackward, rotateClockwise, rotateCounterClockwise]

/-- C7: after one or more consecutive `stop()` calls (at any times) both targets are 0 and
the two speeds are unchanged; and for calls at the same time `stop(stop(s)) = stop(s)`. -/
theorem C7_stop_idempotent (now t : ℚ) (ts : List ℚ) (st : VelocityState) :
    (iterateOp stop (t :: ts) st).linear_vel_ = 0 ∧
    (iterateOp stop (t :: ts) st).angular_vel_ = 0 ∧
    (iterateOp stop (t :: ts) st).linear_speed_ = st.linear_speed_ ∧
    (iterateOp stop (t :: ts) st).angular_speed_ = st.angular_speed_ ∧
    stop now (stop now st) = stop now st := by
  have h1 := iterateOp_stop_targets ts (stop t st) rfl rfl
  have h2 := iterateOp_stop_speeds ts (stop t st)
  exact ⟨h1.1, h1.2, h2.1, h2.2, stop_stop now now st⟩

/-- C8: `increaseLinearSpeed()` followed by `decreaseLinearSpeed()` restores
`linear_speed_`, `increaseAngularSpeed()` followed by `decreaseAngularSpeed()` restores
`angular_speed_`, and neither pair changes `linear_vel_` or `angular_vel_`. -/
theorem C8_increase_then_decrease_restores (cfg : SafetyLimits) (t1 t2 : ℚ)
    (st : VelocityState) :
    ((decreaseLinearSpeed cfg t2 (increaseLinearSpeed cfg t1 st)).linear_speed_ =
        st.linear_speed_ ∧
      (decreaseLinearSpeed cfg t2 (increaseLinearSpeed cfg t1 st)).linear_vel_ =
        st.linear_vel_ ∧
      (decreaseLinearSpeed cfg t2 (increaseLinearSpeed cfg t1 st)).angular_vel_ =
        st.angular_vel_) ∧
    ((decreaseAngularSpeed cfg t2 (increaseAngularSpeed cfg t1 st)).angular_speed_ =
        st.angular_speed_ ∧
      (decreaseAngularSpeed cfg t2 (increaseAngularSpeed cfg t1 st)).linear_vel_ =
        st.linear_vel_ ∧
      (decreaseAngularSpeed cfg t2 (increaseAngularSpeed cfg t1 st)).angular_vel_ =
        st.angular_vel_) := by
  simp [decreaseLinearSpeed, increaseLinearSpeed, decreaseAngularSpeed, increaseAngularSpeed]

/-- C9 (the code breaks the claim): `checkSafety` is declared `bool` and has no `return`
statement, so for every state, scan and time the call ends by running off the end of the
function body, never by returning a value. At the failing input (constructor limits, ten
speed increases and `moveForward()` at time 0, no scan received, cycle at time `1/2`) the
statements force no stop and leave the state unchanged, the loop reads no sample, and the
call still ends without a `return`. -/
theorem C9_checkSafety_runs_off_the_end (cfg : SafetyLimits) (now : ℚ) (ranges : List ℚ)
    (st : VelocityState) :
    (∀ (value : Bool) (st1 : VelocityState),
      checkSafetyCall cfg now ranges st ≠ CallEnd.returned value st1) ∧
    (∃ st1, checkSafetyCall cfg now ranges st = CallEnd.fellOffEnd st1) ∧
    (∀ (inc : ℚ) (st1 : VelocityState), scanLoop cfg now [] inc 0 st1 = some st1) ∧
    checkSafetyCall defaultLimits (1 / 2) [] (moveForward 0 halfSpeed) =
      CallEnd.fellOffEnd (moveForward 0 halfSpeed) := by
  have hsome : ∀ (c : SafetyLimits) (t : ℚ) (r : List ℚ) (s : VelocityState),
      ∃ s1, checkSafety c t r s = some s1 := fun c t r s => ⟨_, checkSafety_eq c t r s⟩
  refine ⟨?_, ?_, ?_, ?_⟩
  · intro value st1
    obtain ⟨s1, h1⟩ := hsome cfg now ranges st
    simp [checkSafetyCall, h1]
  · obtain ⟨s1, h1⟩ := hsome cfg now ranges st
    exact ⟨s1, by simp [checkSafetyCall, h1]⟩
  · intro inc st1
    rw [scanLoop, if_neg (by simp)]
  · have hempty : triggersFrom defaultLimits [] 0 = false :=
      triggersFrom_of_length_le defaultLimits [] 0 (Nat.le_refl 0)
    have hclamp : clampTargets defaultLimits (moveForward 0 halfSpeed) =
        moveForward 0 halfSpeed :=
      clampTargets_of_le _ _ (by norm_num [moveForward, halfSpeed, initialState, defaultLimits])
        (by norm_num [moveForward, halfSpeed, initialState, defaultLimits])
    simp [checkSafetyCall, checkSafety_eq, hempty, hclamp]

/-- C15 (the code misses the rear half-sector): under the constructor limits, a sample at
distance `3/10` at index 0 of 4 (angle -180 degrees, inside the rear sector as the
specification words it) does not stop the moving state: `checkSafety` returns the state
unchanged, with `linear_vel_ = 1/2` and `angular_vel_ = 1/3`. -/
theorem C15_rear_sample_does_not_stop :
    rearScan4[0]? = some (3 / 10 : ℚ) ∧
    (3 / 10 : ℚ) ≤ defaultLimits.min_safety_distance_ ∧
    specInSector ((0 : ℚ) * (360 / (rearScan4.length : ℚ)) - 180) ∧
    checkSafety defaultLimits 1 rearScan4 cruising = some cruising ∧
    cruising.linear_vel_ = 1 / 2 ∧ cruising.angular_vel_ = 1 / 3 := by
  have hquiet : triggersFrom defaultLimits rearScan4 0 = false := by
    simp [triggersFrom, triggers, rearScan4, inSector, defaultLimits, List.range_succ]
    norm_num
  refine ⟨rfl, by norm_num [defaultLimits], by norm_num [rearScan4, specInSector], ?_,
    rfl, rfl⟩
  rw [checkSafety_eq, hquiet,
    clampTargets_of_le _ _ (by norm_num [cruising, defaultLimits])
      (by norm_num [cruising, defaultLimits])]
  simp

/-- C16: changing `laser_safety_check_angle_` and `min_safety_impact_time_` to any values
changes neither the result of any of the nine operations nor the result (next state and
published command) of a control cycle; the sector test is the fixed condition
`-15 < angle < 15` or `165 < angle < 195` for every configuration. -/
theorem C16_unused_limits_are_not_consulted (cfg : SafetyLimits) (a b now : ℚ)
    (ranges : List ℚ) (st : VelocityState) (c : Command) (angle : ℚ) :
    c.apply { cfg with laser_safety_check_angle_ := a, min_safety_impact_time_ := b } now st =
      c.apply cfg now st ∧
    runCycle { cfg with laser_safety_check_angle_ := a, min_safety_impact_time_ := b }
        now ranges st = runCycle cfg now ranges st ∧
    checkSafety { cfg with laser_safety_check_angle_ := a, min_safety_impact_time_ := b }
        now ranges st = checkSafety cfg now ranges st ∧
    (inSector angle = true ↔
      (-15 < angle ∧ angle < 15) ∨ (165 < angle ∧ angle < 195)) := by
  have hcheck : checkSafety
      { cfg with laser_safety_check_angle_ := a, min_safety_impact_time_ := b }
        now ranges st = checkSafety cfg now ranges st := by
    rw [checkSafety_eq, checkSafety_eq]
    rfl
  refine ⟨?_, ?_, hcheck, ?_⟩
  · cases c <;> rfl
  · simp only [runCycle, hcheck]
  · simp [inSector]

theorem scaled_lt_angle (n i c : ℕ) (hn : 0 < n) :
    (c : ℚ) < (i : ℚ) * (360 / (n : ℚ)) ↔ c * n < 360 * i := by
  have hn0 : (0 : ℚ) < (n : ℚ) := by exact_mod_cast hn
  have hx : (i : ℚ) * (360 / (n : ℚ)) * (n : ℚ) = 360 * (i : ℚ) := by
    field_simp
    ring
  rw [← mul_lt_mul_right hn0, hx]
  exact_mod_cast Iff.rfl

theorem angle_lt_scaled (n i c : ℕ) (hn : 0 < n) :
    (i : ℚ) * (360 / (n : ℚ)) < (c : ℚ) ↔ 360 * i < c * n := by
  have hn0 : (0 : ℚ) < (n : ℚ) := by exact_mod_cast hn
  have hx : (i : ℚ) * (360 / (n : ℚ)) * (n : ℚ) = 360 * (i : ℚ) := by
    field_simp
    ring
  rw [← mul_lt_mul_right hn0, hx]
  exact_mod_cast Iff.rfl

theorem inSector_eq_false (a : ℚ) (h : a ≤ -15 ∨ (15 ≤ a ∧ a ≤ 165)) :
    inSector a = false := by
  rw [Bool.eq_false_iff]
  intro hs
  simp only [inSector, Bool.or_eq_true, Bool.and_eq_true, decide_eq_true_eq, gt_iff_lt] at hs
  rcases h with h | ⟨h1, h2⟩ <;> rcases hs with ⟨ha, hb⟩ | ⟨ha, hb⟩ <;> linarith

theorem clampTargets_eq_min (cfg : SafetyLimits) (st : VelocityState) :
    clampTargets cfg st =
      { st with linear_vel_ := min st.linear_vel_ cfg.max_linear_vel_,
                angular_vel_ := min st.angular_vel_ cfg.max_angular_vel_ } := by
  unfold clampTargets
  rcases le_or_lt cfg.max_linear_vel_ st.linear_vel_ with h1 | h1 <;>
    rcases le_or_lt cfg.max_angular_vel_ st.angular_vel_ with h2 | h2
  · simp [h1, h2, min_eq_right h1, min_eq_right h2]
  · simp [h1, not_le.mpr h2, min_eq_right h1, min_eq_left h2.le]
  · simp [not_le.mpr h1, h2, min_eq_left h1.le, min_eq_right h2]
  · simp [not_le.mpr h1, not_le.mpr h2, min_eq_left h1.le, min_eq_left h2.le]

theorem roundNearestEven_err (q : ℚ) : |(roundNearestEven q : ℚ) - q| ≤ 1 / 2 := by
  have h1 : (⌊q⌋ : ℚ) ≤ q := Int.floor_le q
  have h2 : q < (⌊q⌋ : ℚ) + 1 := Int.lt_floor_add_one q
  unfold roundNearestEven
  rw [abs_le]
  split_ifs with ha hb hc
  · constructor <;> linarith
  · push_cast; constructor <;> linarith
  · constructor <;> linarith
  · push_cast; constructor <;> linarith

theorem roundNearestEven_eq (q : ℚ) (m : ℤ) (h : |q - (m : ℚ)| < 1 / 2) :
    roundNearestEven q = m := by
  rw [abs_lt] at h
  rcases le_or_lt (m : ℚ) q with hle | hlt
  · have hf : ⌊q⌋ = m := by
      rw [Int.floor_eq_iff]
      constructor <;> linarith
    unfold roundNearestEven
    rw [hf, if_pos (by linarith)]
  · have hf : ⌊q⌋ = m - 1 := by
      rw [Int.floor_eq_iff]
      push_cast
      constructor <;> linarith
    unfold roundNearestEven
    rw [hf]
    push_cast
    rw [if_neg (by linarith), if_pos (by linarith)]
    ring

theorem toDouble_err (x : ℚ) : |toDouble x - x| ≤ |x| / 2 ^ 53 := by
  unfold toDouble
  split_ifs with h0
  · simp [h0]
  · have hx : 0 < |x| := abs_pos.mpr h0
    set e := Int.log 2 |x| with he
    have hs : (0 : ℚ) < 2 ^ (e - 52) := by positivity
    have hle : ((2 : ℕ) : ℚ) ^ e ≤ |x| := Int.zpow_log_le_self (by norm_num) hx
    have hr := roundNearestEven_err (x / 2 ^ (e - 52))
    have hval : (roundNearestEven (x / 2 ^ (e - 52)) : ℚ) * 2 ^ (e - 52) - x =
        ((roundNearestEven (x / 2 ^ (e - 52)) : ℚ) - x / 2 ^ (e - 52)) * 2 ^ (e - 52) := by
      field_simp
    rw [hval, abs_mul, abs_of_pos hs]
    have hpow : (2 : ℚ) ^ (e - 52) = 2 ^ e / 2 ^ 52 := by
      rw [zpow_sub₀ (by norm_num : (2 : ℚ) ≠ 0)]
      norm_num
    have hle2 : (2 : ℚ) ^ e ≤ |x| := by exact_mod_cast hle
    calc |(roundNearestEven (x / 2 ^ (e - 52)) : ℚ) - x / 2 ^ (e - 52)| * 2 ^ (e - 52)
        ≤ 1 / 2 * 2 ^ (e - 52) := mul_le_mul_of_nonneg_right hr hs.le
      _ = 2 ^ e / 2 ^ 53 := by rw [hpow]; ring
      _ ≤ |x| / 2 ^ 53 := by gcongr

theorem toDouble_eq (x : ℚ) (e m : ℤ) (hlo : (2 : ℚ) ^ e ≤ |x|) (hhi : |x| < 2 ^ (e + 1))
    (hm : |x / 2 ^ (e - 52) - (m : ℚ)| < 1 / 2) :
    toDouble x = (m : ℚ) * 2 ^ (e - 52) := by
  have hpos : 0 < |x| := lt_of_lt_of_le (by positivity) hlo
  have h0 : x ≠ 0 := abs_pos.mp hpos
  have hlog : Int.log 2 |x| = e := by
    apply le_antisymm
    · have := (Int.lt_zpow_iff_log_lt (R := ℚ) (b := 2) (by norm_num) hpos (x := e + 1)).1
        (by exact_mod_cast hhi)
      omega
    · exact (Int.zpow_le_iff_le_log (R := ℚ) (b := 2) (by norm_num) hpos).1
        (by exact_mod_cast hlo)
  unfold toDouble
  rw [if_neg h0, hlog, roundNearestEven_eq _ m hm]

theorem exactAngle_product_le (n i : ℕ) (hi : i < n) :
    0 ≤ (i : ℚ) * (360 / (n : ℚ)) ∧ (i : ℚ) * (360 / (n : ℚ)) ≤ 360 := by
  have hn0 : (0 : ℚ) < (n : ℚ) := by exact_mod_cast (by omega : 0 < n)
  have hin : (i : ℚ) ≤ (n : ℚ) := by exact_mod_cast hi.le
  have hi0 : (0 : ℚ) ≤ (i : ℚ) := by positivity
  refine ⟨by positivity, ?_⟩
  have h : (i : ℚ) * (360 / (n : ℚ)) = 360 * ((i : ℚ) / (n : ℚ)) := by ring
  rw [h]
  have := (div_le_one hn0).2 hin
  linarith

theorem angleDouble_err (n i : ℕ) (hi : i < n) :
    |angleDouble n i - ((i : ℚ) * (360 / (n : ℚ)) - 180)| ≤ 1300 / 2 ^ 53 := by
  have hn0 : (0 : ℚ) < (n : ℚ) := by exact_mod_cast (by omega : 0 < n)
  have hi0 : (0 : ℚ) ≤ (i : ℚ) := by positivity
  obtain ⟨hp0, hp1⟩ := exactAngle_product_le n i hi
  have hx0 : (0 : ℚ) < 360 / (n : ℚ) := by positivity
  -- rounding of the quotient
  have e0 := toDouble_err (360 / (n : ℚ))
  rw [abs_of_pos hx0] at e0
  set inc := toDouble (360 / (n : ℚ)) with hinc
  have e1 : |(i : ℚ) * inc - (i : ℚ) * (360 / (n : ℚ))| ≤ 360 / 2 ^ 53 := by
    rw [← mul_sub, abs_mul, abs_of_nonneg hi0]
    calc (i : ℚ) * |inc - 360 / (n : ℚ)| ≤ (i : ℚ) * (360 / (n : ℚ) / 2 ^ 53) :=
          mul_le_mul_of_nonneg_left e0 hi0
      _ = (i : ℚ) * (360 / (n : ℚ)) / 2 ^ 53 := by ring
      _ ≤ 360 / 2 ^ 53 := by gcongr
  -- rounding of the product
  have e2 := toDouble_err ((i : ℚ) * inc)
  have b1 : |(i : ℚ) * inc| ≤ 361 := by
    rw [abs_le] at e1 ⊢
    constructor <;> norm_num at e1 ⊢ <;> linarith
  have e2b : |toDouble ((i : ℚ) * inc) - (i : ℚ) * inc| ≤ 361 / 2 ^ 53 :=
    e2.trans (by gcongr)
  set p := toDouble ((i : ℚ) * inc) with hp
  -- rounding of the difference
  have e3 := toDouble_err (p - 180)
  have b2 : |p - 180| ≤ 542 := by
    rw [abs_le] at e2b b1 ⊢
    constructor <;> norm_num at e2b b1 ⊢ <;> linarith
  have e3b : |toDouble (p - 180) - (p - 180)| ≤ 542 / 2 ^ 53 := e3.trans (by gcongr)
  have hdef : angleDouble n i = toDouble (p - 180) := rfl
  rw [hdef]
  rw [abs_le] at e1 e2b e3b ⊢
  constructor <;> norm_num at e1 e2b e3b ⊢ <;> linarith

theorem exactAngle_margin_gt (n i c : ℕ) (hn : 0 < n) (h : c * n < 360 * i) :
    (c : ℚ) + 1 / (n : ℚ) ≤ (i : ℚ) * (360 / (n : ℚ)) := by
  have hn0 : (0 : ℚ) < (n : ℚ) := by exact_mod_cast hn
  have hc : (c : ℚ) * (n : ℚ) + 1 ≤ 360 * (i : ℚ) := by exact_mod_cast h
  have e1 : (c : ℚ) + 1 / (n : ℚ) = ((c : ℚ) * (n : ℚ) + 1) / (n : ℚ) := by field_simp
  have e2 : (i : ℚ) * (360 / (n : ℚ)) = 360 * (i : ℚ) / (n : ℚ) := by ring
  rw [e1, e2]
  exact (div_le_div_iff_of_pos_right hn0).2 hc

theorem exactAngle_margin_lt (n i c : ℕ) (hn : 0 < n) (h : 360 * i < c * n) :
    (i : ℚ) * (360 / (n : ℚ)) + 1 / (n : ℚ) ≤ (c : ℚ) := by
  have hn0 : (0 : ℚ) < (n : ℚ) := by exact_mod_cast hn
  have hc : 360 * (i : ℚ) + 1 ≤ (c : ℚ) * (n : ℚ) := by exact_mod_cast h
  have e1 : (c : ℚ) = (c : ℚ) * (n : ℚ) / (n : ℚ) := by field_simp
  have e2 : (i : ℚ) * (360 / (n : ℚ)) + 1 / (n : ℚ) = (360 * (i : ℚ) + 1) / (n : ℚ) := by
    field_simp
    ring
  rw [e1, e2]
  exact (div_le_div_iff_of_pos_right hn0).2 hc

theorem sample_spacing (n : ℕ) (hn : 0 < n) (hmax : n < 2 ^ 31) :
    (1300 : ℚ) / 2 ^ 53 < 1 / (n : ℚ) := by
  have hn0 : (0 : ℚ) < (n : ℚ) := by exact_mod_cast hn
  have hle : (n : ℚ) ≤ 2 ^ 31 := by exact_mod_cast hmax.le
  have h1 : (1 : ℚ) / 2 ^ 31 ≤ 1 / (n : ℚ) := one_div_le_one_div_of_le hn0 hle
  have h2 : (1300 : ℚ) / 2 ^ 53 < 1 / 2 ^ 31 := by norm_num
  linarith

theorem inSector_angleDouble_inside (n i : ℕ) (hi : i < n) (hmax : n < 2 ^ 31)
    (h : (165 * n < 360 * i ∧ 360 * i < 195 * n) ∨ 345 * n < 360 * i) :
    inSector (angleDouble n i) = true := by
  have hn : 0 < n := by omega
  have herr := angleDouble_err n i hi
  have hsp := sample_spacing n hn hmax
  rw [abs_le] at herr
  simp only [inSector, Bool.or_eq_true, Bool.and_eq_true, decide_eq_true_eq, gt_iff_lt]
  rcases h with ⟨h1, h2⟩ | h3
  · have m1 := exactAngle_margin_gt n i 165 hn h1
    have m2 := exactAngle_margin_lt n i 195 hn h2
    push_cast at m1 m2
    exact Or.inl ⟨by linarith, by linarith⟩
  · have m3 := exactAngle_margin_gt n i 345 hn h3
    have m4 := (exactAngle_product_le n i hi).2
    push_cast at m3
    have hsmall : (1300 : ℚ) / 2 ^ 53 < 1 := by norm_num
    exact Or.inr ⟨by linarith, by linarith⟩

theorem inSector_angleDouble_outside (n i : ℕ) (hi : i < n) (hmax : n < 2 ^ 31)
    (h : ¬ ((165 * n ≤ 360 * i ∧ 360 * i ≤ 195 * n) ∨ 345 * n ≤ 360 * i)) :
    inSector (angleDouble n i) = false := by
  have hn : 0 < n := by omega
  have herr := angleDouble_err n i hi
  have hsp := sample_spacing n hn hmax
  rw [abs_le] at herr
  apply inSector_eq_false
  have h345 : 360 * i < 345 * n := by omega
  have m3 := exactAngle_margin_lt n i 345 hn h345
  push_cast at m3
  rcases Nat.lt_or_ge (360 * i) (165 * n) with h1 | h1
  · have m1 := exactAngle_margin_lt n i 165 hn h1
    push_cast at m1
    exact Or.inl (by linarith)
  · have h2 : 195 * n < 360 * i := by omega
    have m2 := exactAngle_margin_gt n i 195 hn h2
    push_cast at m2
    exact Or.inr ⟨by linarith, by linarith⟩

theorem triggersFromDouble_iff (cfg : SafetyLimits) (s : List ℚ) (i : ℕ) :
    triggersFromDouble cfg s i = true ↔
      ∃ j, i ≤ j ∧ j < s.length ∧ triggersDouble cfg s j = true := by
  simp only [triggersFromDouble, List.any_eq_true, List.mem_range, Bool.and_eq_true,
    decide_eq_true_eq]
  exact ⟨fun ⟨j, hj, hij, ht⟩ => ⟨j, hij, hj, ht⟩, fun ⟨j, hij, hj, ht⟩ => ⟨j, hj, hij, ht⟩⟩

theorem triggersFromDouble_step (cfg : SafetyLimits) (s : List ℚ) (i : ℕ)
    (hi : i < s.length) :
    triggersFromDouble cfg s i =
      (triggersDouble cfg s i || triggersFromDouble cfg s (i + 1)) := by
  rw [Bool.eq_iff_iff]
  simp only [Bool.or_eq_true, triggersFromDouble_iff]
  constructor
  · rintro ⟨j, hij, hj, ht⟩
    rcases Nat.eq_or_lt_of_le hij with h | h
    · exact Or.inl (h ▸ ht)
    · exact Or.inr ⟨j, h, hj, ht⟩
  · rintro (ht | ⟨j, hij, hj, ht⟩)
    · exact ⟨i, le_refl i, hi, ht⟩
    · exact ⟨j, by omega, hj, ht⟩

theorem scanLoopDouble_eq (cfg : SafetyLimits) (now : ℚ) (s : List ℚ) :
    ∀ (k i : ℕ) (st : VelocityState), s.length - i = k →
      scanLoopDouble cfg now s (toDouble (360 / (s.length : ℚ))) i st =
        some (if triggersFromDouble cfg s i then stop now st else st) := by
  intro k
  induction k with
  | zero =>
    intro i st hk
    have hf : triggersFromDouble cfg s i = false := by
      rw [Bool.eq_false_iff]
      intro ht
      obtain ⟨j, hij, hj, _⟩ := (triggersFromDouble_iff cfg s i).1 ht
      omega
    rw [scanLoopDouble, if_neg (by omega), hf]
    simp
  | succ k ih =>
    intro i st hk
    have hlt : i < s.length := by omega
    have hget : s[i]? = some s[i] := List.getElem?_eq_getElem hlt
    have hang : toDouble (toDouble ((i : ℚ) * toDouble (360 / (s.length : ℚ))) - 180) =
        angleDouble s.length i := rfl
    rw [scanLoopDouble, if_pos hlt, triggersFromDouble_step cfg s i hlt]
    simp only [hget, hang]
    by_cases hsec : inSector (angleDouble s.length i) = true
    · by_cases hd : s[i] ≤ cfg.min_safety_distance_
      · have ht : triggersDouble cfg s i = true := by simp [triggersDouble, hsec, hget, hd]
        rw [if_pos hsec, if_pos hd, ih (i + 1) (stop now st) (by omega), ht]
        simp [stop_stop]
      · have ht : triggersDouble cfg s i = false := by simp [triggersDouble, hget, hd]
        rw [if_pos hsec, if_neg hd, ih (i + 1) st (by omega), ht]
        simp
    · have ht : triggersDouble cfg s i = false := by simp [triggersDouble, hsec]
      rw [if_neg hsec, ih (i + 1) st (by omega), ht]
      simp

theorem checkSafetyDouble_eq (cfg : SafetyLimits) (now : ℚ) (ranges : List ℚ)
    (st : VelocityState) :
    checkSafetyDouble cfg now ranges st =
      some (if triggersFromDouble cfg ranges 0 then stop now (clampTargets cfg st)
        else clampTargets cfg st) := by
  unfold checkSafetyDouble
  exact scanLoopDouble_eq cfg now ranges ranges.length 0 (clampTargets cfg st) (by omega)

theorem boundaryScan264_length : boundaryScan264.length = 264 := by
  rw [boundaryScan264, List.length_set, List.length_replicate]

theorem boundaryScan264_close : boundaryScan264[143]? = some (3 / 10 : ℚ) := by
  rw [boundaryScan264]
  exact List.getElem?_set_self (by rw [List.length_replicate]; omega)

theorem boundaryScan264_far (i : ℕ) (hi : i < boundaryScan264.length) (h : i ≠ 143) :
    boundaryScan264[i] = 2 := by
  simp only [boundaryScan264]
  rw [List.getElem_set_ne (Ne.symm h), List.getElem_replicate]

theorem angleDouble_264_143 :
    angleDouble 264 143 = 527765581332479 / 35184372088832 := by
  have h0 : toDouble (360 / ((264 : ℕ) : ℚ)) = 6141272219141585 / 4503599627370496 := by
    rw [toDouble_eq _ 0 6141272219141585 (by norm_num [abs_of_pos])
      (by norm_num [abs_of_pos]) (by norm_num [abs_lt])]
    norm_num
  have h1 : toDouble (((143 : ℕ) : ℚ) * (6141272219141585 / 4503599627370496)) =
      6860952557322239 / 35184372088832 := by
    rw [toDouble_eq _ 7 6860952557322239 (by norm_num [abs_of_pos])
      (by norm_num [abs_of_pos]) (by norm_num [abs_lt])]
    norm_num
  have h2 : toDouble ((6860952557322239 / 35184372088832 : ℚ) - 180) =
      527765581332479 / 35184372088832 := by
    rw [toDouble_eq _ 3 8444249301319664 (by norm_num [abs_of_pos])
      (by norm_num [abs_of_pos]) (by norm_num [abs_lt])]
    norm_num
  rw [angleDouble, h0, h1, h2]

/-- C17 (as stated) fails on the code. With 264 samples the sample at index 143 has the
exact angle `143*360/264 - 180 = 15`, so no index meets the claimed condition
(`360*143 = 195*264`); but in `double` the code computes `14.999999999999972 < 15` for it,
the sample is inside the front sector, and with a distance `3/10` it calls `stop()`: both
targets of the moving state become 0. -/
theorem C17_counterexample :
    boundaryScan264[143]? = some (3 / 10 : ℚ) ∧
    (3 / 10 : ℚ) ≤ defaultLimits.min_safety_distance_ ∧
    ((143 : ℕ) : ℚ) * (360 / (boundaryScan264.length : ℚ)) - 180 = 15 ∧
    angleDouble 264 143 = 527765581332479 / 35184372088832 ∧
    angleDouble 264 143 < 15 ∧
    ¬ indexTrigger defaultLimits boundaryScan264 ∧
    triggersDouble defaultLimits boundaryScan264 143 = true ∧
    checkSafetyDouble defaultLimits 1 boundaryScan264 cruising =
      some (stop 1 (clampTargets defaultLimits cruising)) ∧
    (stop 1 (clampTargets defaultLimits cruising)).linear_vel_ = 0 ∧
    (clampTargets defaultLimits cruising).linear_vel_ = 1 / 2 := by
  have hclose : (3 / 10 : ℚ) ≤ defaultLimits.min_safety_distance_ := by
    norm_num [defaultLimits]
  have hlt : angleDouble 264 143 < 15 := by
    rw [angleDouble_264_143]
    norm_num
  have htr : triggersDouble defaultLimits boundaryScan264 143 = true := by
    simp only [triggersDouble, boundaryScan264_length, boundaryScan264_close,
      Bool.and_eq_true, decide_eq_true_eq]
    refine ⟨?_, hclose⟩
    rw [angleDouble_264_143]
    norm_num [inSector]
  have hfrom : triggersFromDouble defaultLimits boundaryScan264 0 = true :=
    (triggersFromDouble_iff _ _ _).2
      ⟨143, Nat.zero_le _, by rw [boundaryScan264_length]; omega, htr⟩
  refine ⟨boundaryScan264_close, hclose, ?_, angleDouble_264_143, hlt, ?_, htr, ?_, rfl, ?_⟩
  · rw [boundaryScan264_length]
    norm_num
  · rintro ⟨i, hi, hd, hc⟩
    by_cases h : i = 143
    · subst h
      rw [boundaryScan264_length] at hc
      omega
    · rw [boundaryScan264_far i hi h] at hd
      norm_num [defaultLimits] at hd
  · rw [checkSafetyDouble_eq, hfrom]
    simp
  · rw [clampTargets_eq_min]
    norm_num [cruising, defaultLimits]

/-- C17 (amended): for a scan of fewer than `2^31` samples, with the angle computed in
`double`, the safety check applies `stop()` to the clamped state when some index `i < n`
has `ranges[i] ≤ min_safety_distance_` and `165*n < 360*i < 195*n` or `360*i > 345*n`; it
returns the clamped state itself when no index has `ranges[i] ≤ min_safety_distance_` and
`165*n ≤ 360*i ≤ 195*n` or `360*i ≥ 345*n`; the clamp replaces each target by the minimum
of the target and its limit and changes nothing else; every exact sample angle is below
180; and a sample whose exact angle is at most -165 never triggers. -/
theorem C17_trigger_condition_in_doubles (cfg : SafetyLimits) (now : ℚ) (ranges : List ℚ)
    (st : VelocityState) (hmax : ranges.length < 2 ^ 31) :
    (indexTrigger cfg ranges →
      checkSafetyDouble cfg now ranges st = some (stop now (clampTargets cfg st))) ∧
    (¬ closedIndexTrigger cfg ranges →
      checkSafetyDouble cfg now ranges st = some (clampTargets cfg st)) ∧
    clampTargets cfg st =
      { st with linear_vel_ := min st.linear_vel_ cfg.max_linear_vel_,
                angular_vel_ := min st.angular_vel_ cfg.max_angular_vel_ } ∧
    (∀ i, i < ranges.length → (i : ℚ) * (360 / (ranges.length : ℚ)) - 180 < 180) ∧
    (∀ i, i < ranges.length → (i : ℚ) * (360 / (ranges.length : ℚ)) - 180 ≤ -165 →
      triggersDouble cfg ranges i = false) := by
  refine ⟨?_, ?_, clampTargets_eq_min cfg st, ?_, ?_⟩
  · rintro ⟨i, hi, hd, hc⟩
    have hget : ranges[i]? = some ranges[i] := List.getElem?_eq_getElem hi
    have htr : triggersDouble cfg ranges i = true := by
      simp only [triggersDouble, hget, Bool.and_eq_true, decide_eq_true_eq]
      exact ⟨inSector_angleDouble_inside ranges.length i hi hmax hc, hd⟩
    rw [checkSafetyDouble_eq,
      (triggersFromDouble_iff cfg ranges 0).2 ⟨i, Nat.zero_le i, hi, htr⟩]
    simp
  · intro hno
    have hf : triggersFromDouble cfg ranges 0 = false := by
      rw [Bool.eq_false_iff]
      intro ht
      obtain ⟨j, _, hj, htr⟩ := (triggersFromDouble_iff cfg ranges 0).1 ht
      have hget : ranges[j]? = some ranges[j] := List.getElem?_eq_getElem hj
      simp only [triggersDouble, hget, Bool.and_eq_true, decide_eq_true_eq] at htr
      by_cases hc : (165 * ranges.length ≤ 360 * j ∧ 360 * j ≤ 195 * ranges.length) ∨
          345 * ranges.length ≤ 360 * j
      · exact hno ⟨j, hj, htr.2, hc⟩
      · rw [inSector_angleDouble_outside ranges.length j hj hmax hc] at htr
        exact Bool.false_ne_true htr.1
    rw [checkSafetyDouble_eq, hf]
    simp
  · intro i hi
    have h := (exactAngle_product_le ranges.length i hi).2
    have h2 := (angle_lt_scaled ranges.length i 360 (by omega)).2 (by omega)
    push_cast at h2
    linarith
  · intro i hi hle
    have hn : 0 < ranges.length := by omega
    have hidx : 360 * i ≤ 15 * ranges.length := by
      by_contra hcon
      have h := (scaled_lt_angle ranges.length i 15 hn).2 (by omega)
      push_cast at h
      linarith
    have hout : ¬ ((165 * ranges.length ≤ 360 * i ∧ 360 * i ≤ 195 * ranges.length) ∨
        345 * ranges.length ≤ 360 * i) := by omega
    simp [triggersDouble, inSector_angleDouble_outside ranges.length i hi hmax hout]

/-- Witness of C17 (amended): under the constructor limits a close sample at index 2 of 4
(0 degrees) meets the strict index condition and `stop()` is applied; a close sample at
index 0 of 4 (-180 degrees) does not meet the condition with the bounds included and only
the clamp is applied. -/
theorem C17_trigger_condition_in_doubles_witness :
    (indexTrigger defaultLimits frontScan4 ∧
      checkSafetyDouble defaultLimits 1 frontScan4 cruising =
        some (stop 1 (clampTargets defaultLimits cruising))) ∧
    (¬ closedIndexTrigger defaultLimits rearScan4 ∧
      checkSafetyDouble defaultLimits 1 rearScan4 cruising =
        some (clampTargets defaultLimits cruising)) := by
  have hfront : indexTrigger defaultLimits frontScan4 :=
    ⟨2, by simp [frontScan4], by norm_num [frontScan4, defaultLimits],
      Or.inl (by simp [frontScan4])⟩
  have hrear : ¬ closedIndexTrigger defaultLimits rearScan4 := by
    rintro ⟨i, hi, hd, hc⟩
    have hi4 : i < 4 := hi
    have hlen : rearScan4.length = 4 := rfl
    rw [hlen] at hc
    interval_cases i
    · omega
    · norm_num [rearScan4, defaultLimits] at hd
    · norm_num [rearScan4, defaultLimits] at hd
    · norm_num [rearScan4, defaultLimits] at hd
  exact ⟨⟨hfront, (C17_trigger_condition_in_doubles defaultLimits 1 frontScan4 cruising
      (by simp [frontScan4])).1 hfront⟩,
    ⟨hrear, (C17_trigger_condition_in_doubles defaultLimits 1 rearScan4 cruising
      (by simp [rearScan4])).2.1 hrear⟩⟩

end SafeTeleop
